import Mathlib

/-!
Verification of the deep-zoom pyramid generator (`deepzoom.go`).

The Go source is shallowly embedded below.  Machine integers (`int`) are
modelled as `Nat`/`Int` (all quantities of interest are small and positive,
no overflow is reachable for the claims considered).  The float computations
`math.Ceil(math.Log2 x)`, `math.Pow 0.5 k`, `math.Ceil (w * scale)` and
`math.Ceil (w / t)` are embedded with their exact real-number values
(as `Nat` and `ℚ` arithmetic): for the 64-bit float pipeline of the source these
agree at every input size reachable in practice.  Fallible code (`panic`)
becomes `Except`.
-/

namespace DeepZoom

/-- Ceiling division on naturals: the exact value of
`int(math.Ceil(float64(a) / float64(b)))` for positive `b`.  -/
def ceilDiv (a b : Nat) : Nat := (a + b - 1) / b

/-- Fuel-based ceiling base-2 logarithm; `clogAux fuel n` equals
`Nat.clog 2 n` whenever `n ≤ fuel` (proved below).  Structural recursion on
the fuel keeps the definition kernel-computable. -/
def clogAux : Nat → Nat → Nat
  | 0, _ => 0
  | fuel + 1, n => if 2 ≤ n then clogAux fuel ((n + 1) / 2) + 1 else 0

/-- The exact value of `int(math.Ceil(math.Log2(float64 n)))` for `n ≥ 1`. -/
def ceilLog2 (n : Nat) : Nat := clogAux n n

/-- Embeds the Go struct `DeepZoomImageDescriptor`.  The memoization field
`numLevels` is dropped: `NumLevels()` always yields the value computed from
the immutable `Height`/`Width`, so the cached method is embedded as the pure
function `NumLevels` below. -/
structure DeepZoomImageDescriptor where
  Format : String
  Overlap : Nat
  TileSize : Nat
  Height : Nat
  Width : Nat
deriving DecidableEq

/-- Embeds `DeepZoomImageDescriptor.NumLevels`:
`int(math.Ceil(math.Log2(max(Height, Width)))) + 1`. -/
def NumLevels (d : DeepZoomImageDescriptor) : Nat :=
  ceilLog2 (max d.Height d.Width) + 1

/-- Embeds the scale computed by `getScale` (after its level check):
`math.Pow(0.5, float64(maxLevel - level))` as an exact rational. -/
def scaleQ (d : DeepZoomImageDescriptor) (level : Nat) : ℚ :=
  (1 / 2) ^ (NumLevels d - 1 - level)

/-- Embeds the body of `getDimensions` (after its level check):
`(ceil(Width * scale), ceil(Height * scale))` with
`scale = 0.5 ^ (maxLevel - level)`, i.e. ceiling division by
`2 ^ (maxLevel - level)`. -/
def dimensions (d : DeepZoomImageDescriptor) (level : Nat) : Nat × Nat :=
  (ceilDiv d.Width (2 ^ (NumLevels d - 1 - level)),
   ceilDiv d.Height (2 ^ (NumLevels d - 1 - level)))

/-- Embeds the body of `getNumTiles` (after its level check):
`(ceil(levelWidth / TileSize), ceil(levelHeight / TileSize))`. -/
def numTiles (d : DeepZoomImageDescriptor) (level : Nat) : Nat × Nat :=
  (ceilDiv (dimensions d level).1 d.TileSize,
   ceilDiv (dimensions d level).2 d.TileSize)

/-- Embeds Go `image.Point`. -/
structure GoPoint where
  X : Int
  Y : Int
deriving DecidableEq

/-- Embeds Go `image.Rectangle`. -/
structure GoRectangle where
  Min : GoPoint
  Max : GoPoint
deriving DecidableEq

/-- Embeds the body of `getTileBounds` (after its level check), line by
line.  `column`/`row` are `Int` because the source performs no range
validation on them. -/
def tileBounds (d : DeepZoomImageDescriptor) (level : Nat)
    (column row : Int) : GoRectangle :=
  let offsetX : Int := if column ≠ 0 then (d.Overlap : Int) else 0
  let offsetW : Int := if column ≠ 0 then 2 else 1
  let offsetY : Int := if row ≠ 0 then (d.Overlap : Int) else 0
  let offsetH : Int := if row ≠ 0 then 2 else 1
  let x : Int := column * (d.TileSize : Int) - offsetX
  let y : Int := row * (d.TileSize : Int) - offsetY
  let levelWidth : Int := ((dimensions d level).1 : Int)
  let levelHeight : Int := ((dimensions d level).2 : Int)
  let w : Int := min ((d.TileSize : Int) + offsetW * (d.Overlap : Int)) (levelWidth - x)
  let h : Int := min ((d.TileSize : Int) + offsetH * (d.Overlap : Int)) (levelHeight - y)
  { Min := { X := x, Y := y }, Max := { X := x + w, Y := y + h } }

/-- Embeds `pyramidLevelCheck`: panics (here: `Except.error`) when
`level < 0 || level >= NumLevels()`. -/
def pyramidLevelCheck (level : Int) (d : DeepZoomImageDescriptor) :
    Except String Unit :=
  if level < 0 ∨ (NumLevels d : Int) ≤ level then
    Except.error "invalid pyramid level"
  else Except.ok ()

/-- Embeds `getScale`: level check, then the power computation. -/
def getScale (d : DeepZoomImageDescriptor) (level : Int) : Except String ℚ := do
  pyramidLevelCheck level d
  pure (scaleQ d level.toNat)

/-- Embeds `getDimensions`: level check, then the ceiling computation. -/
def getDimensions (d : DeepZoomImageDescriptor) (level : Int) :
    Except String (Nat × Nat) := do
  pyramidLevelCheck level d
  pure (dimensions d level.toNat)

/-- Embeds `getNumTiles`: level check, then the tile-count computation. -/
def getNumTiles (d : DeepZoomImageDescriptor) (level : Int) :
    Except String (Nat × Nat) := do
  pyramidLevelCheck level d
  pure (numTiles d level.toNat)

/-- Embeds `getTileBounds`: level check, then the rectangle computation.
No validation of `column`/`row` is performed, mirroring the source. -/
def getTileBounds (d : DeepZoomImageDescriptor) (level column row : Int) :
    Except String GoRectangle := do
  pyramidLevelCheck level d
  pure (tileBounds d level.toNat column row)

/-- Membership of the pixel `(px, py)` in the tile rectangle
`tileBounds d level c r` after stripping the overlap from the rectangle's
leading (left/top) edge, exactly as the spec describes: the leading strip
is `Overlap` when the corresponding coordinate is nonzero and `0` when it
is zero. -/
def strippedMem (d : DeepZoomImageDescriptor) (level c r : Nat)
    (px py : Int) : Prop :=
  (tileBounds d level c r).Min.X + (if c = 0 then 0 else (d.Overlap : Int)) ≤ px ∧
  px < (tileBounds d level c r).Max.X ∧
  (tileBounds d level c r).Min.Y + (if r = 0 then 0 else (d.Overlap : Int)) ≤ py ∧
  py < (tileBounds d level c r).Max.Y

instance strippedMemDecidable (d : DeepZoomImageDescriptor) (level c r : Nat)
    (px py : Int) : Decidable (strippedMem d level c r px py) := by
  unfold strippedMem
  exact inferInstance

/-- Embeds the global `RESIZE_FILTERS` map: filter name to the
`resize` interpolation function it denotes (each algorithm is represented
by its name in the `resize` package). -/
def RESIZE_FILTERS : List (String × String) :=
  [("bilinear", "Bilinear"), ("bicubic", "Bicubic"),
   ("nearest", "NearestNeighbor"), ("lanczos", "Lanczos3")]

/-- Embeds `obtainFilter`: scan the keys of `RESIZE_FILTERS`; when no key
equals the requested name, fall back to `"nearest"`. -/
def obtainFilter (filter : String) : String :=
  if RESIZE_FILTERS.any (fun kv => filter == kv.1) then filter else "nearest"

/-- Embeds a Go map index `RESIZE_FILTERS[k]`: the stored value, or on a
missing key the zero value of `resize.InterpolationFunction`, which is the
constant `NearestNeighbor` (= 0). -/
def mapIndex (m : List (String × String)) (k : String) : String :=
  (m.lookup k).getD "NearestNeighbor"

/-- The algorithm the registry resolves a configured filter name to:
`RESIZE_FILTERS[obtainFilter name]`, as evaluated inside `getImage`. -/
def resolveFilter (name : String) : String :=
  mapIndex RESIZE_FILTERS (obtainFilter name)

/-- In-memory rasters.  `decoded codec w h` is a source raster produced by
an external image decoder; `thumbnail` is a raster produced by the external
resampler. -/
inductive GoImage where
  | decoded (codec : String) (width height : Nat)
  | thumbnail (width height : Nat) (filter : String) (parent : GoImage)
deriving DecidableEq

/-- Pixel width of a raster.  For `thumbnail` this encodes the modelled
resampler contract (see `resizeThumbnail`). -/
def GoImage.width : GoImage → Nat
  | GoImage.decoded _ w _ => w
  | GoImage.thumbnail w _ _ _ => w

/-- Pixel height of a raster. -/
def GoImage.height : GoImage → Nat
  | GoImage.decoded _ _ h => h
  | GoImage.thumbnail _ h _ _ => h

/-- Modelled from the spec: the external resampler `resize.Thumbnail`
(the `nfnt/resize` library, not part of this repository) is specified to
produce a new raster "resized to exactly `Dimensions(level)`" with the
given filter; it is embedded as a constructor recording exactly the
requested target dimensions, the filter, and the input raster. -/
def resizeThumbnail (width height : Nat) (img : GoImage) (filter : String) :
    GoImage :=
  GoImage.thumbnail width height filter img

/-- Embeds the Go struct `ImageCreator`. -/
structure ImageCreator where
  dzid : DeepZoomImageDescriptor
  image : GoImage
  ImageQuality : ℚ
  ResizeFilter : String
  CopyMetadata : Bool
deriving DecidableEq

/-- Embeds the body of `ImageCreator.getImage` (after its level check):
return the source raster unchanged when the level dimensions equal the
descriptor (= source) dimensions, otherwise resample through the registry. -/
def levelImage (ic : ImageCreator) (level : Nat) : GoImage :=
  let wh := dimensions ic.dzid level
  if ic.dzid.Width = wh.1 ∧ ic.dzid.Height = wh.2 then ic.image
  else resizeThumbnail wh.1 wh.2 ic.image (resolveFilter ic.ResizeFilter)

/-- Embeds `ImageCreator.getImage`: level check, then `levelImage`. -/
def getImage (ic : ImageCreator) (level : Int) : Except String GoImage := do
  pyramidLevelCheck level ic.dzid
  pure (levelImage ic level.toNat)

/-- Embeds `loadImage`: format dispatch to the external decoders
(`gg.LoadJPG` / `gg.LoadPNG`, represented by the codec each applies), and a
panic (`Except.error`) on any other format. -/
def loadImage (filePath format : String) : Except String String :=
  if format = "" ∨ format = "jpg" then Except.ok "jpeg"
  else if format = "png" then Except.ok "png"
  else Except.error "only jpg and png are supported"

/-- Embeds `ImageCreator.New`: load the source image, then build the
descriptor from the decoded raster's pixel dimensions (`srcW`, `srcH`
stand for `img.Bounds().Dx()`, `img.Bounds().Dy()` of the externally
decoded raster) and the supplied configuration. -/
def ImageCreatorNew (ic : ImageCreator) (srcW srcH : Nat)
    (source format : String) (tileSize overlap : Nat) :
    Except String ImageCreator :=
  (loadImage source format).map fun codec =>
    { ic with
      image := GoImage.decoded codec srcW srcH
      dzid := { Format := format, Overlap := overlap, TileSize := tileSize,
                Height := srcH, Width := srcW } }

/-- Embeds `path.Ext`: the suffix beginning at the final dot in the final
slash-separated element of the path, empty when there is no such dot.
The helper scans the reversed character list. -/
def extFromRev : List Char → List Char → List Char
  | [], _ => []
  | c :: rest, acc =>
    if c = '.' then c :: acc
    else if c = '/' then []
    else extFromRev rest (c :: acc)

/-- Embeds `path.Ext` on strings. -/
def pathExt (s : String) : String := String.mk (extFromRev s.data.reverse [])

/-- Embeds `strings.TrimSuffix`: drop the suffix when present, else return
the string unchanged. -/
def trimSuffix (s suf : String) : String :=
  if suf.data.isSuffixOf s.data then
    String.mk (s.data.take (s.data.length - suf.data.length))
  else s

/-- Embeds `getFilesPath`: `TrimSuffix(filePath, path.Ext(filePath)) + "_files"`. -/
def getFilesPath (filePath : String) : String :=
  trimSuffix filePath (pathExt filePath) ++ "_files"

/-- The path of one tile file as assembled inside `ImageCreator.create`:
`path.Join(filesDir, level, column_row.format)`.  `path.Join` is embedded
as slash concatenation (its cleaning step is the identity on the
slash-free components produced here). -/
def tilePath (filesDir : String) (level column row : Nat) (format : String) :
    String :=
  filesDir ++ "/" ++ toString level ++ "/" ++ toString column ++ "_" ++
    toString row ++ "." ++ format

/-- One tile file written by `ImageCreator.create`: its path and the
encoder used for its content (`jpeg.Encode` in the source). -/
structure TileWrite where
  path : String
  encoder : String
deriving DecidableEq

/-- Embeds the tile-emission loop of `ImageCreator.create`: for every
level in `[0, NumLevels)`, every column and every row in `getNumTiles`,
one tile file is written at `tilePath`, always through `jpeg.Encode`.
The loop levels are all in range, so the checked getters reduce to their
bodies. -/
def create (ic : ImageCreator) (destination : String) : List TileWrite :=
  (List.range (NumLevels ic.dzid)).flatMap fun level =>
    (List.range (numTiles ic.dzid level).1).flatMap fun column =>
      (List.range (numTiles ic.dzid level).2).map fun row =>
        { path := tilePath (getFilesPath destination) level column row
            ic.dzid.Format,
          encoder := "jpeg" }

/-- Concrete descriptor with `max(Width, Height) = 3`, not a power of two. -/
def dSmall : DeepZoomImageDescriptor :=
  { Format := "jpg", Overlap := 0, TileSize := 256, Height := 1, Width := 3 }

/-- The spec's concrete scenario `W=512, H=384, tileSize=256, overlap=0`. -/
def dSpec : DeepZoomImageDescriptor :=
  { Format := "jpg", Overlap := 0, TileSize := 256, Height := 384, Width := 512 }

/-- The spec's overlap scenario `overlap=10, tileSize=256` on a `512×384`
source. -/
def dOv : DeepZoomImageDescriptor :=
  { Format := "jpg", Overlap := 10, TileSize := 256, Height := 384, Width := 512 }

/-- A `257×1` source with `tileSize=256, overlap=10`: its top level has two
columns whose leading-stripped rectangles share pixel `(256, 0)`. -/
def dGap : DeepZoomImageDescriptor :=
  { Format := "jpg", Overlap := 10, TileSize := 256, Height := 1, Width := 257 }

/-- A `1×1` source used for concrete emission checks. -/
def icTiny : ImageCreator :=
  { dzid := { Format := "jpg", Overlap := 0, TileSize := 256, Height := 1, Width := 1 },
    image := GoImage.decoded "jpeg" 1 1,
    ImageQuality := 4 / 5, ResizeFilter := "", CopyMetadata := false }

/-- An `ImageCreator` over the spec's `512×384` scenario. -/
def icSpec : ImageCreator :=
  { dzid := dSpec, image := GoImage.decoded "jpeg" 512 384,
    ImageQuality := 4 / 5, ResizeFilter := "", CopyMetadata := false }

/-! Helper lemmas about the embedded arithmetic. -/

theorem clogAux_eq_clog : ∀ fuel n : Nat, n ≤ fuel → clogAux fuel n = Nat.clog 2 n := by
  intro fuel
  induction fuel with
  | zero =>
    intro n hn
    interval_cases n
    simp [clogAux]
  | succ f ih =>
    intro n hn
    by_cases h2 : 2 ≤ n
    · have hrec : (n + 1) / 2 ≤ f := by omega
      have hdiv : n + 2 - 1 = n + 1 := by omega
      rw [Nat.clog_of_two_le (by norm_num) h2, hdiv]
      simp only [clogAux, if_pos h2]
      rw [ih _ hrec]
    · simp only [clogAux, if_neg h2]
      rw [Nat.clog_of_right_le_one (by omega)]

theorem ceilLog2_eq_clog (n : Nat) : ceilLog2 n = Nat.clog 2 n :=
  clogAux_eq_clog n n le_rfl

theorem ceilDiv_one (a : Nat) : ceilDiv a 1 = a := by
  unfold ceilDiv
  omega

theorem ceilDiv_eq_div_succ (a m : Nat) (ha : 0 < a) (hm : 0 < m) :
    ceilDiv a m = (a - 1) / m + 1 := by
  unfold ceilDiv
  have h : a + m - 1 = (a - 1) + m := by omega
  rw [h, Nat.add_div_right _ hm]

theorem le_ceilDiv_mul (a m : Nat) (hm : 0 < m) : a ≤ ceilDiv a m * m := by
  rcases Nat.eq_zero_or_pos a with ha | ha
  · simp [ha]
  · rw [ceilDiv_eq_div_succ a m ha hm]
    have e : m * ((a - 1) / m) + (a - 1) % m = a - 1 := Nat.div_add_mod (a - 1) m
    have hlt : (a - 1) % m < m := Nat.mod_lt _ hm
    have h1 : a - 1 < m * ((a - 1) / m) + m := by omega
    calc a = (a - 1) + 1 := by omega
      _ ≤ m * ((a - 1) / m) + m := h1
      _ = ((a - 1) / m + 1) * m := by ring

theorem ceilDiv_mul_lt (a m : Nat) (hm : 0 < m) : ceilDiv a m * m < a + m := by
  rcases Nat.eq_zero_or_pos a with ha | ha
  · have h0 : ceilDiv 0 m = 0 := by
      unfold ceilDiv
      apply Nat.div_eq_of_lt
      omega
    rw [ha, h0]
    omega
  · rw [ceilDiv_eq_div_succ a m ha hm]
    have h1 : (a - 1) / m * m ≤ a - 1 := Nat.div_mul_le_self _ _
    calc ((a - 1) / m + 1) * m = (a - 1) / m * m + m := by ring
      _ ≤ (a - 1) + m := by omega
      _ < a + m := by omega

theorem ceilDiv_pos (a m : Nat) (ha : 0 < a) (hm : 0 < m) : 0 < ceilDiv a m := by
  rcases Nat.eq_zero_or_pos (ceilDiv a m) with h | h
  · have := le_ceilDiv_mul a m hm
    rw [h] at this
    omega
  · exact h

theorem tile_start_lt (n T : Nat) (hT : 0 < T) (c : Nat)
    (hc : c < ceilDiv n T) : c * T < n := by
  have h1 : (c + 1) * T ≤ ceilDiv n T * T := Nat.mul_le_mul_right T hc
  have h2 : ceilDiv n T * T < n + T := ceilDiv_mul_lt n T hT
  have h3 : c * T + T < n + T := by
    calc c * T + T = (c + 1) * T := by ring
      _ ≤ ceilDiv n T * T := h1
      _ < n + T := h2
  exact Nat.lt_of_add_lt_add_right h3

theorem ceilDiv_cast_eq_ceil (a m : Nat) (hm : 0 < m) :
    ((ceilDiv a m : Nat) : Int) = ⌈(a : ℚ) / (m : ℚ)⌉ := by
  have hmQ : (0 : ℚ) < (m : ℚ) := by exact_mod_cast hm
  symm
  rw [Int.ceil_eq_iff]
  constructor
  · rw [lt_div_iff₀ hmQ]
    have h2 : ceilDiv a m * m < a + m := ceilDiv_mul_lt a m hm
    have h2Q : ((ceilDiv a m : ℚ)) * m < (a : ℚ) + m := by exact_mod_cast h2
    push_cast
    nlinarith [h2Q]
  · rw [div_le_iff₀ hmQ]
    have h1 : a ≤ ceilDiv a m * m := le_ceilDiv_mul a m hm
    have h1Q : (a : ℚ) ≤ (ceilDiv a m : ℚ) * m := by exact_mod_cast h1
    push_cast
    nlinarith [h1Q]

theorem tileBounds_min_x (d : DeepZoomImageDescriptor) (level : Nat)
    (c : Nat) (r : Int) :
    (tileBounds d level (c : Int) r).Min.X =
      (c : Int) * d.TileSize - (if c = 0 then 0 else (d.Overlap : Int)) := by
  by_cases hc : c = 0
  · subst hc
    simp [tileBounds]
  · have hcI : (c : Int) ≠ 0 := by exact_mod_cast hc
    simp [tileBounds, hcI, hc]

theorem tileBounds_min_y (d : DeepZoomImageDescriptor) (level : Nat)
    (c : Int) (r : Nat) :
    (tileBounds d level c (r : Int)).Min.Y =
      (r : Int) * d.TileSize - (if r = 0 then 0 else (d.Overlap : Int)) := by
  by_cases hr : r = 0
  · subst hr
    simp [tileBounds]
  · have hrI : (r : Int) ≠ 0 := by exact_mod_cast hr
    simp [tileBounds, hrI, hr]

theorem tileBounds_max_x (d : DeepZoomImageDescriptor) (level : Nat)
    (c : Nat) (r : Int) :
    (tileBounds d level (c : Int) r).Max.X =
      min ((c : Int) * d.TileSize + d.TileSize + d.Overlap)
        ((dimensions d level).1 : Int) := by
  have key : ∀ x w L : Int, x + min w (L - x) = min (x + w) L := by
    intro x w L
    rw [← min_add_add_left]
    congr 1
    ring
  by_cases hc : c = 0
  · subst hc
    simp only [tileBounds, Nat.cast_zero, ne_eq, not_true_eq_false, if_false, ite_false,
      zero_mul, zero_sub, neg_zero, sub_zero, zero_add, ite_self]
    congr 1
    ring
  · have hcI : (c : Int) ≠ 0 := by exact_mod_cast hc
    simp only [tileBounds, ne_eq, hcI, not_false_eq_true, if_true, ite_true]
    rw [key]
    congr 1
    ring

theorem tileBounds_max_y (d : DeepZoomImageDescriptor) (level : Nat)
    (c : Int) (r : Nat) :
    (tileBounds d level c (r : Int)).Max.Y =
      min ((r : Int) * d.TileSize + d.TileSize + d.Overlap)
        ((dimensions d level).2 : Int) := by
  have key : ∀ y h L : Int, y + min h (L - y) = min (y + h) L := by
    intro y h L
    rw [← min_add_add_left]
    congr 1
    ring
  by_cases hr : r = 0
  · subst hr
    simp only [tileBounds, Nat.cast_zero, ne_eq, not_true_eq_false, if_false, ite_false,
      zero_mul, zero_sub, neg_zero, sub_zero, zero_add, ite_self]
    congr 1
    ring
  · have hrI : (r : Int) ≠ 0 := by exact_mod_cast hr
    simp only [tileBounds, ne_eq, hrI, not_false_eq_true, if_true, ite_true]
    rw [key]
    congr 1
    ring

theorem strippedMem_iff (d : DeepZoomImageDescriptor) (level : Nat)
    (c r : Nat) (px py : Int) :
    strippedMem d level c r px py ↔
      ((c : Int) * d.TileSize ≤ px ∧
        px < min ((c : Int) * d.TileSize + d.TileSize + d.Overlap)
          ((dimensions d level).1 : Int)) ∧
      ((r : Int) * d.TileSize ≤ py ∧
        py < min ((r : Int) * d.TileSize + d.TileSize + d.Overlap)
          ((dimensions d level).2 : Int)) := by
  unfold strippedMem
  rw [tileBounds_min_x, tileBounds_min_y, tileBounds_max_x, tileBounds_max_y]
  split_ifs <;>
  · generalize (c : Int) * (d.TileSize : Int) = A
    generalize (r : Int) * (d.TileSize : Int) = B
    omega

theorem axis_cover (n T O : Nat) (hT : 0 < T) (px : Int)
    (h0 : 0 ≤ px) (hpx : px < (n : Int)) :
    ∃ c : Nat, c < ceilDiv n T ∧ (c : Int) * T ≤ px ∧
      px < min ((c : Int) * T + T + O) (n : Int) := by
  set p := px.toNat with hp
  have hpx' : (p : Int) = px := Int.toNat_of_nonneg h0
  have hpn : p < n := by omega
  refine ⟨p / T, ?_, ?_, ?_⟩
  · have hnT : n ≤ ceilDiv n T * T := le_ceilDiv_mul n T hT
    have : p < ceilDiv n T * T := lt_of_lt_of_le hpn hnT
    exact (Nat.div_lt_iff_lt_mul hT).mpr this
  · have h1 : p / T * T ≤ p := Nat.div_mul_le_self p T
    have : ((p / T : Nat) : Int) * T ≤ (p : Int) := by exact_mod_cast h1
    omega
  · have e : T * (p / T) + p % T = p := Nat.div_add_mod p T
    have hm : p % T < T := Nat.mod_lt p hT
    have h2 : p < p / T * T + T := by
      calc p = T * (p / T) + p % T := e.symm
        _ < T * (p / T) + T := by omega
        _ = p / T * T + T := by ring
    have h2I : (p : Int) < ((p / T : Nat) : Int) * T + T := by exact_mod_cast h2
    rw [lt_min_iff]
    constructor
    · have : (0 : Int) ≤ (O : Int) := by positivity
      omega
    · omega

theorem axis_unique (T : Nat) (hT : 0 < T) (c₁ c₂ : Nat) (px : Int)
    (h₁ : (c₁ : Int) * T ≤ px ∧ px < (c₁ : Int) * T + T)
    (h₂ : (c₂ : Int) * T ≤ px ∧ px < (c₂ : Int) * T + T) : c₁ = c₂ := by
  have hTI : (0 : Int) < T := by exact_mod_cast hT
  rcases lt_trichotomy c₁ c₂ with h | h | h
  · exfalso
    have hle : ((c₁ : Int) + 1) ≤ (c₂ : Int) := by exact_mod_cast h
    have hmul : ((c₁ : Int) + 1) * T ≤ (c₂ : Int) * T :=
      mul_le_mul_of_nonneg_right hle (le_of_lt hTI)
    have hexp : ((c₁ : Int) + 1) * T = (c₁ : Int) * T + T := by ring
    linarith [h₁.2, h₂.1]
  · exact h
  · exfalso
    have hle : ((c₂ : Int) + 1) ≤ (c₁ : Int) := by exact_mod_cast h
    have hmul : ((c₂ : Int) + 1) * T ≤ (c₁ : Int) * T :=
      mul_le_mul_of_nonneg_right hle (le_of_lt hTI)
    have hexp : ((c₂ : Int) + 1) * T = (c₂ : Int) * T + T := by ring
    linarith [h₂.2, h₁.1]

theorem axis_size (n T O : Nat) (hT : 0 < T) (c : Nat)
    (hc : c < ceilDiv n T) :
    min ((c : Int) * T + T + O) (n : Int) -
        ((c : Int) * T - (if c = 0 then 0 else (O : Int))) =
      min ((T : Int) +
          ((if 0 < c then 1 else 0) + (if c + 1 < ceilDiv n T then 1 else 0)) * (O : Int))
        ((n : Int) - ((c : Int) * T - (if c = 0 then 0 else (O : Int)))) := by
  have hO : (0 : Int) ≤ (O : Int) := by positivity
  have hnle : (n : Int) ≤ (ceilDiv n T : Int) * T := by
    exact_mod_cast le_ceilDiv_mul n T hT
  by_cases hc0 : c = 0
  · subst hc0
    by_cases h1 : 0 + 1 < ceilDiv n T
    · simp only [if_pos h1, Nat.cast_zero, zero_mul, if_neg (lt_irrefl 0), if_pos rfl,
        zero_add, sub_zero]
      rcases le_total ((0 : Int) * T + T + O) (n : Int) with h | h <;>
        rcases le_total ((T : Int) + (0 + 1) * O) ((n : Int) - 0) with h2 | h2 <;>
        simp [min_def] <;> omega
    · have hcols : ceilDiv n T = 1 := by omega
      have hnT : (n : Int) ≤ (T : Int) := by
        rw [hcols] at hnle
        simpa using hnle
      simp only [hcols] at *
      simp only [if_neg h1, Nat.cast_zero, zero_mul, if_neg (lt_irrefl 0), if_pos rfl,
        zero_add, sub_zero, add_zero]
      rcases le_total ((0 : Int) + T + O) (n : Int) with h | h <;>
        simp [min_def] <;> omega
  · have hcpos : 0 < c := Nat.pos_of_ne_zero hc0
    have hkey : ∀ A B s : Int, min A B - s = min (A - s) (B - s) := by
      intro A B s
      rcases le_total A B with h | h
      · rw [min_eq_left h, min_eq_left (by omega)]
      · rw [min_eq_right h, min_eq_right (by omega)]
    rw [if_neg hc0, if_pos hcpos, hkey]
    by_cases h1 : c + 1 < ceilDiv n T
    · rw [if_pos h1]
      congr 1
      ring
    · rw [if_neg h1]
      have hcols : ceilDiv n T = c + 1 := by omega
      rw [hcols] at hnle
      push_cast at hnle
      have hbound : (n : Int) - ((c : Int) * T - O) ≤ (T : Int) + (1 + 0) * O := by nlinarith
      have hA : (c : Int) * T + T + O - ((c : Int) * T - O) = T + 2 * O := by ring
      rw [hA]
      rcases le_total ((T : Int) + 2 * O) ((n : Int) - ((c : Int) * T - O)) with h | h
      · rw [min_eq_left h, min_eq_right hbound]
        omega
      · rw [min_eq_right h, min_eq_right hbound]

theorem axis_pos (n T O : Nat) (hT : 0 < T) (c : Nat) (hc : c < ceilDiv n T) :
    (c : Int) * T - (if c = 0 then 0 else (O : Int)) <
      min ((c : Int) * T + T + O) (n : Int) := by
  have h1 : c * T < n := tile_start_lt n T hT c hc
  have h1I : (c : Int) * T < n := by exact_mod_cast h1
  have hO : (0 : Int) ≤ (O : Int) := by positivity
  have hTI : (0 : Int) < (T : Int) := by exact_mod_cast hT
  rw [lt_min_iff]
  constructor <;> split_ifs <;> linarith

/-! The claims. -/

/-- C1, counterexample: the claim "NumLevels() returns
floor(log2(max(width, height))) + 1" fails at the concrete descriptor with
`Width = 3, Height = 1`: the code computes `ceil(log2 3) + 1 = 3`, the
floor formula gives `1 + 1 = 2`. -/
theorem C1_counterexample :
    (NumLevels dSmall : Int) ≠
      ⌊Real.logb 2 ((max dSmall.Width dSmall.Height : Nat) : ℝ)⌋ + 1 := by
  have hmax : (max dSmall.Width dSmall.Height : Nat) = 3 := by decide
  have h2 : (2 : ℝ) = ((2 : Nat) : ℝ) := by norm_num
  rw [hmax, h2, Real.floor_logb_natCast (by positivity), Int.log_natCast]
  have hlog : Nat.log 2 3 = 1 := by
    apply Nat.log_eq_of_pow_le_of_lt_pow <;> norm_num
  rw [hlog]
  have hnl : NumLevels dSmall = 3 := by decide
  rw [hnl]
  decide

/-- C1, amended: for every descriptor built from positive source
dimensions, `NumLevels()` returns `ceil(log2(max(width, height))) + 1`
(ceiling, not floor). -/
theorem C1_thm (d : DeepZoomImageDescriptor)
    (hW : 0 < d.Width) (hH : 0 < d.Height) :
    (NumLevels d : Int) =
      ⌈Real.logb 2 ((max d.Width d.Height : Nat) : ℝ)⌉ + 1 := by
  have h2 : (2 : ℝ) = ((2 : Nat) : ℝ) := by norm_num
  rw [h2, Real.ceil_logb_natCast (by positivity), Int.clog_natCast]
  have hNL : NumLevels d = Nat.clog 2 (max d.Width d.Height) + 1 := by
    unfold NumLevels
    rw [ceilLog2_eq_clog, Nat.max_comm]
  rw [hNL]
  push_cast
  ring

/-- C1, witness: the amended formula at the `3×1` descriptor. -/
theorem C1_witness :
    (NumLevels dSmall : Int) =
      ⌈Real.logb 2 ((max dSmall.Width dSmall.Height : Nat) : ℝ)⌉ + 1 :=
  C1_thm dSmall (by decide) (by decide)

/-- C2: for every descriptor with positive width and height,
`Dimensions(NumLevels() - 1)` equals `(width, height)` exactly, where for
every valid level `Dimensions(level)` is
`(ceil(width * scale), ceil(height * scale))` and
`scale(level) = 2 ^ (level - (numLevels - 1))`. -/
theorem C2_thm (d : DeepZoomImageDescriptor) (hW : 0 < d.Width) (hH : 0 < d.Height) :
    dimensions d (NumLevels d - 1) = (d.Width, d.Height) ∧
    ∀ level : Nat, level < NumLevels d →
      scaleQ d level = (2 : ℚ) ^ ((level : Int) - ((NumLevels d : Int) - 1)) ∧
      ((dimensions d level).1 : Int) = ⌈(d.Width : ℚ) * scaleQ d level⌉ ∧
      ((dimensions d level).2 : Int) = ⌈(d.Height : ℚ) * scaleQ d level⌉ := by
  constructor
  · unfold dimensions
    rw [Nat.sub_self]
    simp [ceilDiv_one]
  · intro level hl
    set k := NumLevels d - 1 - level with hk
    have hscale : (d.Width : ℚ) * scaleQ d level = (d.Width : ℚ) / ((2 ^ k : Nat) : ℚ) := by
      unfold scaleQ
      rw [← hk]
      push_cast
      rw [one_div, inv_pow, ← div_eq_mul_inv]
    have hscaleH : (d.Height : ℚ) * scaleQ d level =
        (d.Height : ℚ) / ((2 ^ k : Nat) : ℚ) := by
      unfold scaleQ
      rw [← hk]
      push_cast
      rw [one_div, inv_pow, ← div_eq_mul_inv]
    refine ⟨?_, ?_, ?_⟩
    · have hexp : (level : Int) - ((NumLevels d : Int) - 1) = -(k : Int) := by omega
      rw [hexp, zpow_neg, zpow_natCast]
      unfold scaleQ
      rw [← hk, one_div, inv_pow]
    · rw [hscale]
      unfold dimensions
      rw [← hk]
      exact ceilDiv_cast_eq_ceil d.Width (2 ^ k) (by positivity)
    · rw [hscaleH]
      unfold dimensions
      rw [← hk]
      exact ceilDiv_cast_eq_ceil d.Height (2 ^ k) (by positivity)

/-- C2, witness: the top level of the `512×384` descriptor reproduces the
source dimensions exactly. -/
theorem C2_witness : dimensions dSpec (NumLevels dSpec - 1) = (512, 384) :=
  (C2_thm dSpec (by decide) (by decide)).1

/-- C3, counterexample: the claim "the stripped rectangles exactly
partition the level with no pixel in two rectangles" fails at the `257×1`
descriptor with `tileSize = 256, overlap = 10`: at its top level (level 9,
dimensions `257×1`, tile count `2×1`) the pixel `(256, 0)` lies in the
leading-stripped rectangles of both tile `(0,0)` and tile `(1,0)`. -/
theorem C3_counterexample :
    0 < (numTiles dGap 9).1 ∧ 1 < (numTiles dGap 9).1 ∧ 0 < (numTiles dGap 9).2 ∧
    9 < NumLevels dGap ∧
    (0 : Int) ≤ 256 ∧ (256 : Int) < ((dimensions dGap 9).1 : Int) ∧
    (0 : Int) ≤ 0 ∧ (0 : Int) < ((dimensions dGap 9).2 : Int) ∧
    strippedMem dGap 9 0 0 256 0 ∧ strippedMem dGap 9 1 0 256 0 ∧
    (0 : Nat) ≠ 1 := by
  decide

/-- C3, amended: for every valid level, the leading-stripped rectangles of
the tiles in `TileCount(level)` cover the level's pixel rectangle exactly
(a pixel lies in the level rectangle iff it lies in some stripped
rectangle of an in-range tile); and when `overlap = 0` no pixel lies in
two stripped rectangles, so they exactly partition the level.  (For
`overlap > 0` adjacent stripped rectangles still share trailing-edge
pixels, which is what the counterexample exhibits.) -/
theorem C3_thm (d : DeepZoomImageDescriptor) (hW : 0 < d.Width) (hH : 0 < d.Height)
    (hT : 0 < d.TileSize) (level : Nat) (hl : level < NumLevels d) :
    (∀ px py : Int,
      (0 ≤ px ∧ px < ((dimensions d level).1 : Int) ∧
        0 ≤ py ∧ py < ((dimensions d level).2 : Int)) ↔
      ∃ c r : Nat, c < (numTiles d level).1 ∧ r < (numTiles d level).2 ∧
        strippedMem d level c r px py) ∧
    (d.Overlap = 0 → ∀ c₁ r₁ c₂ r₂ : Nat, ∀ px py : Int,
      strippedMem d level c₁ r₁ px py → strippedMem d level c₂ r₂ px py →
      c₁ = c₂ ∧ r₁ = r₂) := by
  constructor
  · intro px py
    constructor
    · rintro ⟨hx0, hxn, hy0, hyn⟩
      obtain ⟨c, hc, hc1, hc2⟩ :=
        axis_cover (dimensions d level).1 d.TileSize d.Overlap hT px hx0 hxn
      obtain ⟨r, hr, hr1, hr2⟩ :=
        axis_cover (dimensions d level).2 d.TileSize d.Overlap hT py hy0 hyn
      refine ⟨c, r, hc, hr, ?_⟩
      rw [strippedMem_iff]
      exact ⟨⟨hc1, hc2⟩, ⟨hr1, hr2⟩⟩
    · rintro ⟨c, r, hc, hr, hmem⟩
      rw [strippedMem_iff] at hmem
      obtain ⟨⟨hx1, hx2⟩, hy1, hy2⟩ := hmem
      have hc0 : (0 : Int) ≤ (c : Int) * d.TileSize := by positivity
      have hr0 : (0 : Int) ≤ (r : Int) * d.TileSize := by positivity
      exact ⟨le_trans hc0 hx1, lt_of_lt_of_le hx2 (min_le_right _ _),
        le_trans hr0 hy1, lt_of_lt_of_le hy2 (min_le_right _ _)⟩
  · intro hO0 c₁ r₁ c₂ r₂ px py h1 h2
    rw [strippedMem_iff] at h1 h2
    have hshrink : ∀ (c : Nat) (q : Int),
        q < min ((c : Int) * d.TileSize + d.TileSize + d.Overlap)
          ((dimensions d level).1 : Int) ∨
        q < min ((c : Int) * d.TileSize + d.TileSize + d.Overlap)
          ((dimensions d level).2 : Int) →
        q < (c : Int) * d.TileSize + d.TileSize := by
      intro c q hq
      have hO : ((d.Overlap : Int)) = 0 := by exact_mod_cast hO0
      rcases hq with hq | hq <;>
      · have := lt_of_lt_of_le hq (min_le_left _ _)
        omega
    constructor
    · exact axis_unique d.TileSize hT c₁ c₂ px
        ⟨h1.1.1, hshrink c₁ px (Or.inl h1.1.2)⟩
        ⟨h2.1.1, hshrink c₂ px (Or.inl h2.1.2)⟩
    · exact axis_unique d.TileSize hT r₁ r₂ py
        ⟨h1.2.1, hshrink r₁ py (Or.inr h1.2.2)⟩
        ⟨h2.2.1, hshrink r₂ py (Or.inr h2.2.2)⟩

/-- C3, witness: on the `512×384, tileSize=256, overlap=10` descriptor the
amended coverage direction produces an in-range tile whose stripped
rectangle contains the pixel `(511, 383)` of top level 9. -/
theorem C3_witness :
    ∃ c r : Nat, c < (numTiles dOv 9).1 ∧ r < (numTiles dOv 9).2 ∧
      strippedMem dOv 9 c r 511 383 :=
  ((C3_thm dOv (by decide) (by decide) (by decide) 9 (by decide)).1 511 383).mp
    (by decide)

/-- C4: for every valid level and in-range tile coordinate, the rectangle
of `TileBounds` has leading offset `overlap` on an axis exactly when the
coordinate on that axis is nonzero (else `0`), size on each axis equal to
`tileSize` plus `overlap` for each side with a neighboring tile (0, 1 or 2
sides) clipped to the level's extent, and never extends past the level's
width or height. -/
theorem C4_thm (d : DeepZoomImageDescriptor) (hW : 0 < d.Width) (hH : 0 < d.Height)
    (hT : 0 < d.TileSize) (level : Nat) (hl : level < NumLevels d) (c r : Nat)
    (hc : c < (numTiles d level).1) (hr : r < (numTiles d level).2) :
    ((c : Int) * d.TileSize - (tileBounds d level (c : Int) (r : Int)).Min.X =
      if c = 0 then 0 else (d.Overlap : Int)) ∧
    ((r : Int) * d.TileSize - (tileBounds d level (c : Int) (r : Int)).Min.Y =
      if r = 0 then 0 else (d.Overlap : Int)) ∧
    ((tileBounds d level (c : Int) (r : Int)).Max.X -
        (tileBounds d level (c : Int) (r : Int)).Min.X =
      min ((d.TileSize : Int) +
          ((if 0 < c then 1 else 0) + (if c + 1 < (numTiles d level).1 then 1 else 0)) *
            (d.Overlap : Int))
        (((dimensions d level).1 : Int) -
          (tileBounds d level (c : Int) (r : Int)).Min.X)) ∧
    ((tileBounds d level (c : Int) (r : Int)).Max.Y -
        (tileBounds d level (c : Int) (r : Int)).Min.Y =
      min ((d.TileSize : Int) +
          ((if 0 < r then 1 else 0) + (if r + 1 < (numTiles d level).2 then 1 else 0)) *
            (d.Overlap : Int))
        (((dimensions d level).2 : Int) -
          (tileBounds d level (c : Int) (r : Int)).Min.Y)) ∧
    ((tileBounds d level (c : Int) (r : Int)).Max.X ≤ ((dimensions d level).1 : Int)) ∧
    ((tileBounds d level (c : Int) (r : Int)).Max.Y ≤ ((dimensions d level).2 : Int)) := by
  have hc' : c < ceilDiv (dimensions d level).1 d.TileSize := hc
  have hr' : r < ceilDiv (dimensions d level).2 d.TileSize := hr
  refine ⟨?_, ?_, ?_, ?_, ?_, ?_⟩
  · rw [tileBounds_min_x]
    ring
  · rw [tileBounds_min_y]
    ring
  · rw [tileBounds_max_x, tileBounds_min_x]
    exact axis_size (dimensions d level).1 d.TileSize d.Overlap hT c hc'
  · rw [tileBounds_max_y, tileBounds_min_y]
    exact axis_size (dimensions d level).2 d.TileSize d.Overlap hT r hr'
  · rw [tileBounds_max_x]
    exact min_le_right _ _
  · rw [tileBounds_max_y]
    exact min_le_right _ _

/-- C4, witness: the spec scenario `overlap=10, tileSize=256`, tile
`column=1, row=0` of the top level of a `512×384` source has leading-left
offset 10 and leading-top offset 0. -/
theorem C4_witness :
    (1 : Int) * dOv.TileSize - (tileBounds dOv 9 (1 : Int) (0 : Int)).Min.X = 10 ∧
    (0 : Int) * dOv.TileSize - (tileBounds dOv 9 (1 : Int) (0 : Int)).Min.Y = 0 := by
  have h := C4_thm dOv (by decide) (by decide) (by decide) 9 (by decide) 1 0
    (by decide) (by decide)
  constructor
  · simpa [dOv] using h.1
  · simpa [dOv] using h.2.1

/-- C5: for every valid level and every tile coordinate in range of
`TileCount(level)`, the rectangle returned by `TileBounds` has strictly
positive width and height. -/
theorem C5_thm (d : DeepZoomImageDescriptor) (hW : 0 < d.Width) (hH : 0 < d.Height)
    (hT : 0 < d.TileSize) (level : Nat) (hl : level < NumLevels d) (c r : Nat)
    (hc : c < (numTiles d level).1) (hr : r < (numTiles d level).2) :
    (tileBounds d level (c : Int) (r : Int)).Min.X <
      (tileBounds d level (c : Int) (r : Int)).Max.X ∧
    (tileBounds d level (c : Int) (r : Int)).Min.Y <
      (tileBounds d level (c : Int) (r : Int)).Max.Y := by
  have hc' : c < ceilDiv (dimensions d level).1 d.TileSize := hc
  have hr' : r < ceilDiv (dimensions d level).2 d.TileSize := hr
  constructor
  · rw [tileBounds_min_x, tileBounds_max_x]
    exact axis_pos (dimensions d level).1 d.TileSize d.Overlap hT c hc'
  · rw [tileBounds_min_y, tileBounds_max_y]
    exact axis_pos (dimensions d level).2 d.TileSize d.Overlap hT r hr'

/-- C5, witness: tile `(1, 1)` of the top level of the `512×384,
overlap=10` descriptor has positive width and height. -/
theorem C5_witness :
    (tileBounds dOv 9 (1 : Int) (1 : Int)).Min.X <
      (tileBounds dOv 9 (1 : Int) (1 : Int)).Max.X ∧
    (tileBounds dOv 9 (1 : Int) (1 : Int)).Min.Y <
      (tileBounds dOv 9 (1 : Int) (1 : Int)).Max.Y :=
  C5_thm dOv (by decide) (by decide) (by decide) 9 (by decide) 1 1
    (by decide) (by decide)

/-- C6: for every valid level, if `Dimensions(level)` equals the source
dimensions then `LevelImage(level)` is the source raster itself
(unchanged, not a copy); otherwise it is a freshly produced raster with
dimensions exactly `Dimensions(level)`, resampled with the filter
resolved through the resize-filter registry. -/
theorem C6_thm (ic : ImageCreator) (hW : ic.dzid.Width = ic.image.width)
    (hH : ic.dzid.Height = ic.image.height) (level : Nat)
    (hl : level < NumLevels ic.dzid) :
    (dimensions ic.dzid level = (ic.image.width, ic.image.height) →
      levelImage ic level = ic.image) ∧
    (dimensions ic.dzid level ≠ (ic.image.width, ic.image.height) →
      levelImage ic level =
        resizeThumbnail (dimensions ic.dzid level).1 (dimensions ic.dzid level).2
          ic.image (resolveFilter ic.ResizeFilter) ∧
      (levelImage ic level).width = (dimensions ic.dzid level).1 ∧
      (levelImage ic level).height = (dimensions ic.dzid level).2 ∧
      levelImage ic level ≠ ic.image) := by
  constructor
  · intro heq
    have h1 : (dimensions ic.dzid level).1 = ic.image.width := by rw [heq]
    have h2 : (dimensions ic.dzid level).2 = ic.image.height := by rw [heq]
    simp only [levelImage]
    rw [if_pos ⟨hW.trans h1.symm, hH.trans h2.symm⟩]
  · intro hne
    have hcond : ¬(ic.dzid.Width = (dimensions ic.dzid level).1 ∧
        ic.dzid.Height = (dimensions ic.dzid level).2) := by
      rintro ⟨h1, h2⟩
      exact hne (Prod.ext (h1.symm.trans hW) (h2.symm.trans hH))
    simp only [levelImage]
    rw [if_neg hcond]
    refine ⟨rfl, rfl, rfl, ?_⟩
    intro heq
    have h := congrArg sizeOf heq
    simp [resizeThumbnail] at h

/-- C6, witness: level 8 of the `512×384` creator is resampled to exactly
`256×192` through the registry (empty filter name resolves to
nearest-neighbor). -/
theorem C6_witness :
    levelImage icSpec 8 =
      resizeThumbnail 256 192 (GoImage.decoded "jpeg" 512 384) "NearestNeighbor" := by
  have h := (C6_thm icSpec rfl rfl 8 (by decide)).2 (by decide)
  exact h.1

/-- C7: `Scale`, `Dimensions`, `TileCount` and `TileBounds` fail with the
invalid-level error exactly when the level is outside `[0, NumLevels)` and
succeed on every level inside it; `TileBounds` performs no validation of
`column` and `row` (its result is `ok` for all of them whenever the level
is valid). -/
theorem C7_thm : ∀ (d : DeepZoomImageDescriptor) (level : Int),
    (getScale d level =
      if 0 ≤ level ∧ level < (NumLevels d : Int) then Except.ok (scaleQ d level.toNat)
      else Except.error "invalid pyramid level") ∧
    (getDimensions d level =
      if 0 ≤ level ∧ level < (NumLevels d : Int) then Except.ok (dimensions d level.toNat)
      else Except.error "invalid pyramid level") ∧
    (getNumTiles d level =
      if 0 ≤ level ∧ level < (NumLevels d : Int) then Except.ok (numTiles d level.toNat)
      else Except.error "invalid pyramid level") ∧
    (∀ column row : Int, getTileBounds d level column row =
      if 0 ≤ level ∧ level < (NumLevels d : Int) then
        Except.ok (tileBounds d level.toNat column row)
      else Except.error "invalid pyramid level") := by
  intro d level
  by_cases h : level < 0 ∨ (NumLevels d : Int) ≤ level
  · have hneg : ¬(0 ≤ level ∧ level < (NumLevels d : Int)) := by omega
    refine ⟨?_, ?_, ?_, fun column row => ?_⟩ <;>
      simp [getScale, getDimensions, getNumTiles, getTileBounds, pyramidLevelCheck,
        if_pos h, if_neg hneg, Except.bind]
  · have hpos : 0 ≤ level ∧ level < (NumLevels d : Int) := by omega
    refine ⟨?_, ?_, ?_, fun column row => ?_⟩ <;>
      simp [getScale, getDimensions, getNumTiles, getTileBounds, pyramidLevelCheck,
        if_neg h, if_pos hpos, Except.bind]

/-- C8: every registered filter name resolves to its own algorithm, and
every unrecognized name resolves, without error, to the nearest-neighbor
algorithm. -/
theorem C8_thm :
    resolveFilter "bilinear" = "Bilinear" ∧ resolveFilter "bicubic" = "Bicubic" ∧
    resolveFilter "nearest" = "NearestNeighbor" ∧ resolveFilter "lanczos" = "Lanczos3" ∧
    ∀ name : String, name ≠ "bilinear" → name ≠ "bicubic" → name ≠ "nearest" →
      name ≠ "lanczos" → resolveFilter name = "NearestNeighbor" := by
  refine ⟨by decide, by decide, by decide, by decide, ?_⟩
  intro name h1 h2 h3 h4
  have hob : obtainFilter name = "nearest" := by
    unfold obtainFilter RESIZE_FILTERS
    simp only [List.any_cons, List.any_nil, Bool.or_false]
    rw [if_neg]
    simp only [Bool.or_eq_true, beq_iff_eq]
    push_neg
    exact ⟨h1, h2, h3, h4⟩
  unfold resolveFilter
  rw [hob]
  decide

/-- C8, witness: the unknown name `"xyz"` resolves to nearest-neighbor. -/
theorem C8_witness : resolveFilter "xyz" = "NearestNeighbor" :=
  C8_thm.2.2.2.2 "xyz" (by decide) (by decide) (by decide) (by decide)

/-- C9: during emission with destination `D`, the written tiles are
exactly one file per level in `[0, NumLevels)` and per `(column, row)` in
`TileCount(level)`, at `<D-without-extension>_files/<level>/<column>_<row>.<format>`,
and every tile is encoded with the JPEG encoder regardless of the
configured format. -/
theorem C9_thm : ∀ (ic : ImageCreator) (destination : String),
    (∀ t : TileWrite, t ∈ create ic destination ↔
      ∃ level column row : Nat, level < NumLevels ic.dzid ∧
        column < (numTiles ic.dzid level).1 ∧ row < (numTiles ic.dzid level).2 ∧
        t = { path := tilePath (getFilesPath destination) level column row
                ic.dzid.Format,
              encoder := "jpeg" }) ∧
    (∀ t : TileWrite, t ∈ create ic destination → t.encoder = "jpeg") := by
  intro ic destination
  have hmem : ∀ t : TileWrite, t ∈ create ic destination ↔
      ∃ level column row : Nat, level < NumLevels ic.dzid ∧
        column < (numTiles ic.dzid level).1 ∧ row < (numTiles ic.dzid level).2 ∧
        t = { path := tilePath (getFilesPath destination) level column row
                ic.dzid.Format,
              encoder := "jpeg" } := by
    intro t
    unfold create
    simp only [List.mem_flatMap, List.mem_map, List.mem_range]
    constructor
    · rintro ⟨level, hlevel, column, hcolumn, row, hrow, heq⟩
      exact ⟨level, column, row, hlevel, hcolumn, hrow, heq.symm⟩
    · rintro ⟨level, column, row, hlevel, hcolumn, hrow, heq⟩
      exact ⟨level, hlevel, column, hcolumn, row, hrow, heq.symm⟩
  refine ⟨hmem, ?_⟩
  intro t ht
  obtain ⟨level, column, row, h1, h2, h3, heq⟩ := (hmem t).mp ht
  rw [heq]

/-- C9, witness: the single tile of a `1×1` source with destination
`out.dzi` is written at `out_files/0/0_0.jpg` with the JPEG encoder. -/
theorem C9_witness :
    ({ path := "out_files/0/0_0.jpg", encoder := "jpeg" } : TileWrite) ∈
      create icTiny "out.dzi" := by
  refine ((C9_thm icTiny "out.dzi").1 _).mpr ?_
  exact ⟨0, 0, 0, by decide, by decide, by decide, by decide⟩

/-- C10: constructing an `ImageCreator` with the empty-string format does
not fail: the source is decoded as JPEG exactly as with format `"jpg"`;
any format other than `""`, `"jpg"` and `"png"` aborts with the
unsupported-format error before any creator (and hence any output) is
produced. -/
theorem C10_thm : ∀ (ic : ImageCreator) (srcW srcH : Nat)
    (source : String) (tileSize overlap : Nat),
    ImageCreatorNew ic srcW srcH source "" tileSize overlap =
      Except.ok { dzid := { Format := "", Overlap := overlap, TileSize := tileSize,
                            Height := srcH, Width := srcW },
                  image := GoImage.decoded "jpeg" srcW srcH,
                  ImageQuality := ic.ImageQuality, ResizeFilter := ic.ResizeFilter,
                  CopyMetadata := ic.CopyMetadata } ∧
    ImageCreatorNew ic srcW srcH source "jpg" tileSize overlap =
      Except.ok { dzid := { Format := "jpg", Overlap := overlap, TileSize := tileSize,
                            Height := srcH, Width := srcW },
                  image := GoImage.decoded "jpeg" srcW srcH,
                  ImageQuality := ic.ImageQuality, ResizeFilter := ic.ResizeFilter,
                  CopyMetadata := ic.CopyMetadata } ∧
    ∀ format : String, format ≠ "" → format ≠ "jpg" → format ≠ "png" →
      ImageCreatorNew ic srcW srcH source format tileSize overlap =
        Except.error "only jpg and png are supported" := by
  intro ic srcW srcH source tileSize overlap
  refine ⟨?_, ?_, ?_⟩
  · simp [ImageCreatorNew, loadImage, Except.map]
  · simp [ImageCreatorNew, loadImage, Except.map]
  · intro format h1 h2 h3
    simp [ImageCreatorNew, loadImage, h1, h2, h3, Except.map]

/-- C10, witness: format `"gif"` aborts with the unsupported-format
error. -/
theorem C10_witness :
    ImageCreatorNew icTiny 512 384 "a.jpg" "gif" 256 0 =
      Except.error "only jpg and png are supported" :=
  (C10_thm icTiny 512 384 "a.jpg" 256 0).2.2 "gif" (by decide) (by decide) (by decide)

end DeepZoom
